import Mathlib

/-!
Shallow embedding of the `github-stats` tool from the repository
(`src/projects/github-stats/src/{api.rs, display.rs, main.rs}`).

Machine integers (`u32` star counts, `usize` limits and page numbers) are
modelled as `Nat`; no arithmetic in the modelled code can overflow in a way
the claims depend on.  Rust's stable `sort_by` is modelled with
`List.mergeSort` (stable).  Rust's Unicode `to_lowercase` is modelled by
lowercasing each character (`lowerStr`), and Rust's lexicographic byte-wise
`Ord` on strings by lexicographic comparison of the character sequence
(`strLe`); both agree with Rust on ASCII, which is all the comparisons in
the claims need.  Terminal output is modelled as a list of structured
output events, one per `println!` that carries data relevant to the claims.
-/

/-- `Repo` mirrors `api.rs`'s `struct Repo`. -/
structure Repo where
  name : String
  stargazers_count : Nat
  language : Option String
  description : Option String
  fork : Bool
  html_url : String
deriving DecidableEq, Repr

/-- One HTTP page response, as `fetch_repos` distinguishes them:
a transport failure, HTTP 404, another non-success status, a success whose
body fails to deserialize, or a successfully parsed list of repos. -/
inductive PageResponse where
  | transportError (msg : String)
  | notFound
  | httpError (status : Nat) (body : String)
  | parseError (msg : String)
  | ok (repos : List Repo)
deriving DecidableEq, Repr

/-- The 404 error message `fetch_repos` produces: `User '<username>' not found`. -/
def userNotFoundMsg (username : String) : String :=
  "User \x27" ++ username ++ "\x27 not found"

/-- The pagination loop of `fetch_repos` (`api.rs`).  `pages` maps a page
number to the response the network would give for it.  `fuel` bounds the
number of iterations (the Rust loop has no such bound; `none` means the loop
did not finish within `fuel` iterations).  Besides the result it returns the
list of page numbers that were requested, in order. -/
def fetchStep (pages : Nat → PageResponse) (username : String) :
    Nat → Nat → List Repo → List Nat → Option (List Nat × Except String (List Repo))
  | 0, _, _, _ => none
  | fuel + 1, page, acc, trace =>
    let trace := trace ++ [page]
    match pages page with
    | .transportError m => some (trace, .error ("Request failed: " ++ m))
    | .notFound => some (trace, .error (userNotFoundMsg username))
    | .httpError st body =>
        some (trace, .error ("GitHub API error: " ++ toString st ++ " " ++ body))
    | .parseError m => some (trace, .error ("Failed to parse response: " ++ m))
    | .ok repos =>
        if repos.isEmpty then some (trace, .ok acc)
        else fetchStep pages username fuel (page + 1) (acc ++ repos) trace

/-- `fetch_repos`: start at page 1 with an empty accumulator. -/
def fetchRepos (pages : Nat → PageResponse) (username : String) (fuel : Nat) :
    Option (List Nat × Except String (List Repo)) :=
  fetchStep pages username fuel 1 [] []

/-- The fork filter at the top of `display_repos` (`display.rs` line 5). -/
def forkFilter (repos : List Repo) : List Repo :=
  repos.filter (fun r => !r.fork)

/-- Rust's `to_lowercase`, modelled per character (they agree on ASCII). -/
def lowerStr (s : String) : String := ⟨s.data.map Char.toLower⟩

/-- Lexicographic "less or equal" on character sequences: the model of
Rust's `Ord` on `String` restricted to the non-strict comparisons the
sort needs. -/
def charListLe : List Char → List Char → Bool
  | [], _ => true
  | _ :: _, [] => false
  | a :: as, b :: bs =>
      if a < b then true
      else if b < a then false
      else charListLe as bs

/-- Lexicographic comparison of two strings. -/
def strLe (a b : String) : Bool := charListLe a.data b.data

/-- The comparator of the `"stars"` arm: `b.stargazers_count.cmp(&a.stargazers_count)`,
i.e. descending star count. -/
def starsLe (a b : Repo) : Bool := decide (b.stargazers_count ≤ a.stargazers_count)

/-- The comparator of the `"name"` arm:
`a.name.to_lowercase().cmp(&b.name.to_lowercase())`, ascending. -/
def nameLe (a b : Repo) : Bool := strLe (lowerStr a.name) (lowerStr b.name)

/-- The `match sort_by` in `display_repos` (`display.rs` lines 7-13):
`"stars"` sorts by star count descending, `"name"` by case-insensitive name
ascending, anything else falls through to the stars ordering. -/
def sortRepos (sortBy : String) (repos : List Repo) : List Repo :=
  match sortBy with
  | "stars" => repos.mergeSort starsLe
  | "name" => repos.mergeSort nameLe
  | _ => repos.mergeSort starsLe

/-- The language filter in `main` (`main.rs` lines 34-41):
keep a repo iff its language is present and lowercases to the filter's
lowercase form. -/
def langFilter (lang : String) (repos : List Repo) : List Repo :=
  let langLower := lowerStr lang
  repos.filter (fun r => (r.language.map (fun l => lowerStr l == langLower)).getD false)

/-- `main` applies the language filter only when one was supplied. -/
def applyLangFilter (language : Option String) (repos : List Repo) : List Repo :=
  match language with
  | some lang => langFilter lang repos
  | none => repos

/-- The language tally of `display_summary` (`display.rs` lines 49-54).
The Rust code uses a `HashMap` whose iteration order is unspecified; this
model keys the tally in first-insertion order.  The per-language counts are
identical; only the relative order of equal-count languages (unspecified in
Rust) differs, and no claim depends on it. -/
def bumpLang (counts : List (String × Nat)) (lang : String) : List (String × Nat) :=
  match counts with
  | [] => [(lang, 1)]
  | (l, c) :: rest =>
      if l = lang then (l, c + 1) :: rest else (l, c) :: bumpLang rest lang

/-- Fold the tally over the repos: only repos whose `language` is `Some` are
counted (`display.rs` lines 50-54). -/
def langCounts (repos : List Repo) : List (String × Nat) :=
  repos.foldl
    (fun counts r =>
      match r.language with
      | some lang => bumpLang counts lang
      | none => counts)
    []

/-- The comparator `b.1.cmp(a.1)` on tally entries (`display.rs` line 57):
descending by occurrence count. -/
def countLe (a b : String × Nat) : Bool := decide (b.2 ≤ a.2)

/-- `lang_sorted`: the tally sorted by count descending (`display.rs` line 57). -/
def sortedLangCounts (repos : List Repo) : List (String × Nat) :=
  (langCounts repos).mergeSort countLe

/-- The at-most-5 languages actually shown (`.take(5)` on `display.rs` line 61). -/
def topLangs (repos : List Repo) : List (String × Nat) :=
  (sortedLangCounts repos).take 5

/-- Format one tally entry as `lang (count)` (`display.rs` line 62). -/
def langEntry (p : String × Nat) : String :=
  p.1 ++ " (" ++ toString p.2 ++ ")"

/-- Join the shown tally entries with `", "` (`display.rs` lines 59-64). -/
def langSummaryString (repos : List Repo) : String :=
  String.intercalate ", " ((topLangs repos).map langEntry)

/-- Structured output events, one per data-carrying `println!`. -/
inductive OutLine where
  | fetching (username : String)
  | noLangRepos (lang : String) (username : String)
  | header (username : String) (total : Nat) (displayCount : Nat) (sortBy : String)
  | tableRow (name : String) (stars : Nat) (language : String)
  | noReposFound
  | totalStars (n : Nat)
  | languages (summary : String)
  | mostStarred (name : String) (stars : Nat)
deriving DecidableEq, Repr

/-- `display_summary` (`display.rs` lines 41-79): on an empty list print the
"No repositories found." line and return; otherwise print the total star
count, the language summary when non-empty, and the FIRST element of the
(already sorted) list as "Most starred". -/
def displaySummary (repos : List Repo) : List OutLine :=
  if repos.isEmpty then [OutLine.noReposFound]
  else
    (OutLine.totalStars ((repos.map (fun r => r.stargazers_count)).sum))
      :: (if langSummaryString repos = "" then []
          else [OutLine.languages (langSummaryString repos)])
      ++ (match repos.head? with
          | some top => [OutLine.mostStarred top.name top.stargazers_count]
          | none => [])

/-- `display_repos` (`display.rs` lines 4-39): drop forks, sort, print the
header, print the first `limit` rows, then the summary over the full sorted
(untruncated) list. -/
def displayRepos (username : String) (repos : List Repo) (limit : Nat) (sortBy : String) :
    List OutLine :=
  let filtered := forkFilter repos
  let sorted := sortRepos sortBy filtered
  let displayCount := min limit sorted.length
  OutLine.header username sorted.length displayCount sortBy
    :: ((sorted.take limit).map
          (fun r => OutLine.tableRow r.name r.stargazers_count (r.language.getD "(none)")))
    ++ displaySummary sorted

/-- The observable outcome of one run of `main`: stdout events, stderr lines,
exit code. -/
structure MainResult where
  stdout : List OutLine
  stderr : List String
  exitCode : Nat
deriving DecidableEq, Repr

/-- `main` (`main.rs` lines 26-56) after the fetch completed: on fetch error,
print it to stderr and exit 1; otherwise apply the language filter when given,
take the early "No <lang> repositories found" exit when it empties the list,
and otherwise display.  Falling off `main` is exit code 0. -/
def runMain (username : String) (limit : Nat) (sortBy : String) (language : Option String)
    (fetched : Except String (List Repo)) : MainResult :=
  match fetched with
  | .ok repos =>
    match language with
    | some lang =>
      let repos2 := langFilter lang repos
      if repos2.isEmpty then
        ⟨[OutLine.fetching username, OutLine.noLangRepos lang username], [], 0⟩
      else
        ⟨OutLine.fetching username :: displayRepos username repos2 limit sortBy, [], 0⟩
    | none =>
        ⟨OutLine.fetching username :: displayRepos username repos limit sortBy, [], 0⟩
  | .error e => ⟨[OutLine.fetching username], ["Error: " ++ e], 1⟩

/-! ## Concrete example data, used by witnesses and the counterexample -/

/-- A non-fork repo named "alpha" with 1 star. -/
def exRepoA : Repo := ⟨"alpha", 1, none, none, false, "urlA"⟩

/-- A non-fork repo named "beta" with 10 stars. -/
def exRepoB : Repo := ⟨"beta", 10, none, none, false, "urlB"⟩

/-- A two-repo fetch result. -/
def exRepos : List Repo := [exRepoA, exRepoB]

/-- A single non-fork repo with no language. -/
def exRepoC : Repo := ⟨"gamma", 7, none, none, false, "urlC"⟩

/-- A forked Rust repo. -/
def exRepoD : Repo := ⟨"delta", 3, some "Rust", none, true, "urlD"⟩

/-! ## Helper lemmas about the sort -/

theorem sortRepos_stars (repos : List Repo) :
    sortRepos "stars" repos = repos.mergeSort starsLe := rfl

theorem sortRepos_name (repos : List Repo) :
    sortRepos "name" repos = repos.mergeSort nameLe := rfl

theorem starsLe_trans : ∀ a b c : Repo, starsLe a b → starsLe b c → starsLe a c := by
  intro a b c hab hbc
  simp only [starsLe, decide_eq_true_eq] at *
  omega

theorem starsLe_total : ∀ a b : Repo, starsLe a b || starsLe b a := by
  intro a b
  simp only [starsLe, Bool.or_eq_true, decide_eq_true_eq]
  omega

theorem charListLe_total : ∀ as bs : List Char, charListLe as bs || charListLe bs as := by
  intro as
  induction as with
  | nil => intro bs; simp [charListLe]
  | cons a as ih =>
    intro bs
    cases bs with
    | nil => simp [charListLe]
    | cons b bs =>
      by_cases hab : a < b
      · simp [charListLe, hab]
      · by_cases hba : b < a
        · simp [charListLe, hab, hba]
        · simpa [charListLe, hab, hba] using ih bs

theorem charListLe_trans : ∀ as bs cs : List Char,
    charListLe as bs → charListLe bs cs → charListLe as cs := by
  intro as
  induction as with
  | nil => intro bs cs _ _; simp [charListLe]
  | cons a as ih =>
    intro bs cs hab hbc
    cases bs with
    | nil => simp [charListLe] at hab
    | cons b bs =>
      cases cs with
      | nil => simp [charListLe] at hbc
      | cons c cs =>
        by_cases h1 : a < b
        · by_cases h2 : b < c
          · simp [charListLe, lt_trans h1 h2]
          · by_cases h3 : c < b
            · simp [charListLe, h2, h3] at hbc
            · have hbc' : b = c := le_antisymm (not_lt.mp h3) (not_lt.mp h2)
              subst hbc'
              simp [charListLe, h1]
        · by_cases h1' : b < a
          · simp [charListLe, h1, h1'] at hab
          · have hab' : a = b := le_antisymm (not_lt.mp h1') (not_lt.mp h1)
            subst hab'
            simp only [charListLe, lt_irrefl, if_false] at hab
            by_cases h2 : a < c
            · simp [charListLe, h2]
            · by_cases h3 : c < a
              · simp [charListLe, h2, h3] at hbc
              · simp only [charListLe, h2, h3, if_false] at hbc ⊢
                exact ih bs cs hab hbc

theorem nameLe_trans : ∀ a b c : Repo, nameLe a b → nameLe b c → nameLe a c := by
  intro a b c hab hbc
  exact charListLe_trans _ _ _ hab hbc

theorem nameLe_total : ∀ a b : Repo, nameLe a b || nameLe b a := by
  intro a b
  exact charListLe_total _ _

theorem sortRepos_other (sortBy : String) (h : sortBy ≠ "name") (repos : List Repo) :
    sortRepos sortBy repos = repos.mergeSort starsLe := by
  unfold sortRepos
  split
  · rfl
  · simp_all
  · rfl

theorem sortRepos_perm (sortBy : String) (repos : List Repo) :
    List.Perm (sortRepos sortBy repos) repos := by
  unfold sortRepos
  split <;> exact List.mergeSort_perm _ _

theorem pairwise_sortRepos_stars (repos : List Repo) :
    (sortRepos "stars" repos).Pairwise
      (fun a b => b.stargazers_count ≤ a.stargazers_count) := by
  rw [sortRepos_stars]
  exact (List.sorted_mergeSort starsLe_trans starsLe_total repos).imp
    (fun hab => by simpa [starsLe, decide_eq_true_eq] using hab)

theorem pairwise_sortRepos_name (repos : List Repo) :
    (sortRepos "name" repos).Pairwise
      (fun a b => strLe (lowerStr a.name) (lowerStr b.name)) := by
  rw [sortRepos_name]
  exact (List.sorted_mergeSort nameLe_trans nameLe_total repos).imp
    (fun hab => hab)

/-! ## Claim theorems -/

/-- C5: on any fork-filtered record sequence, sorting with key "stars" gives
non-increasing star counts, sorting with key "name" gives case-insensitively
non-decreasing names, and any key other than "stars" and "name" gives exactly
the "stars" ordering. -/
theorem sort_keys_spec (repos : List Repo) (sortBy : String) :
    ((sortRepos "stars" (forkFilter repos)).Pairwise
        (fun a b => b.stargazers_count ≤ a.stargazers_count))
    ∧ ((sortRepos "name" (forkFilter repos)).Pairwise
        (fun a b => strLe (lowerStr a.name) (lowerStr b.name)))
    ∧ (sortBy ≠ "stars" → sortBy ≠ "name" →
        sortRepos sortBy (forkFilter repos) = sortRepos "stars" (forkFilter repos)) := by
  refine ⟨pairwise_sortRepos_stars _, pairwise_sortRepos_name _, fun _ h2 => ?_⟩
  rw [sortRepos_other sortBy h2, sortRepos_stars]

/-- Witness for C5 at a concrete sort key "foo" and the example repos. -/
theorem sort_keys_spec_witness :
    sortRepos "foo" (forkFilter exRepos) = sortRepos "stars" (forkFilter exRepos) :=
  (sort_keys_spec exRepos "foo").2.2 (by decide) (by decide)

/-- C6: a record survives the language filter exactly when it occurs in the
input and its language is present and case-insensitively equal to the
filter language. -/
theorem langFilter_mem_iff (lang : String) (repos : List Repo) (r : Repo) :
    r ∈ langFilter lang repos ↔
      r ∈ repos ∧ ∃ l, r.language = some l ∧ lowerStr l = lowerStr lang := by
  simp only [langFilter, List.mem_filter]
  constructor
  · rintro ⟨hr, hp⟩
    refine ⟨hr, ?_⟩
    cases hl : r.language with
    | none => rw [hl] at hp; simp at hp
    | some l =>
        rw [hl] at hp
        simp only [Option.map_some', Option.getD_some, beq_iff_eq] at hp
        exact ⟨l, rfl, hp⟩
  · rintro ⟨hr, l, hl, heq⟩
    refine ⟨hr, ?_⟩
    rw [hl]
    simp [heq]

/-- C9: the language filter and the fork filter commute. -/
theorem filters_commute (lang : String) (repos : List Repo) :
    forkFilter (langFilter lang repos) = langFilter lang (forkFilter repos) := by
  simp only [forkFilter, langFilter, List.filter_filter]
  congr 1
  funext r
  exact Bool.and_comm _ _

/-! ## Helper lemmas about the display stage -/

theorem sortRepos_nil (sortBy : String) : sortRepos sortBy [] = [] := by
  unfold sortRepos
  split <;> simp

theorem totalStars_displaySummary {repos : List Repo} {t : Nat}
    (h : OutLine.totalStars t ∈ displaySummary repos) :
    t = (repos.map (fun r => r.stargazers_count)).sum := by
  unfold displaySummary at h
  split at h
  · simp at h
  · simp only [List.mem_cons, List.mem_append] at h
    rcases h with (h | h) | h
    · simpa using h
    · split at h <;> simp at h
    · split at h
      next top heq => simp at h
      next heq => simp at h

theorem mostStarred_displaySummary {repos : List Repo} {n : String} {s : Nat}
    (h : OutLine.mostStarred n s ∈ displaySummary repos) :
    ∃ top, repos.head? = some top ∧ n = top.name ∧ s = top.stargazers_count := by
  unfold displaySummary at h
  split at h
  · simp at h
  · simp only [List.mem_cons, List.mem_append] at h
    rcases h with (h | h) | h
    · simp at h
    · split at h <;> simp at h
    · split at h
      next top heq =>
        simp only [List.mem_singleton] at h
        injection h with hn hs
        exact ⟨top, heq, hn, hs⟩
      next heq => simp at h

theorem totalStars_displayRepos {username : String} {repos : List Repo} {limit : Nat}
    {sortBy : String} {t : Nat}
    (h : OutLine.totalStars t ∈ displayRepos username repos limit sortBy) :
    t = ((sortRepos sortBy (forkFilter repos)).map (fun r => r.stargazers_count)).sum := by
  unfold displayRepos at h
  simp only [List.mem_cons, List.mem_append, List.mem_map] at h
  rcases h with (h | h) | h
  · simp at h
  · obtain ⟨r, _, hr⟩ := h
    simp at hr
  · exact totalStars_displaySummary h

theorem mostStarred_displayRepos {username : String} {repos : List Repo} {limit : Nat}
    {sortBy : String} {n : String} {s : Nat}
    (h : OutLine.mostStarred n s ∈ displayRepos username repos limit sortBy) :
    ∃ top, (sortRepos sortBy (forkFilter repos)).head? = some top ∧
      n = top.name ∧ s = top.stargazers_count := by
  unfold displayRepos at h
  simp only [List.mem_cons, List.mem_append, List.mem_map] at h
  rcases h with (h | h) | h
  · simp at h
  · obtain ⟨r, _, hr⟩ := h
    simp at hr
  · exact mostStarred_displaySummary h

theorem displayRepos_of_empty (username : String) (repos : List Repo) (limit : Nat)
    (sortBy : String) (h : forkFilter repos = []) :
    displayRepos username repos limit sortBy =
      [OutLine.header username 0 0 sortBy, OutLine.noReposFound] := by
  unfold displayRepos
  rw [h]
  simp [sortRepos_nil, displaySummary]

theorem sortRepos_ex_stars : sortRepos "stars" [exRepoA, exRepoB] = [exRepoB, exRepoA] := by
  rw [sortRepos_stars]
  simp [List.mergeSort, List.merge, List.splitInTwo, starsLe, exRepoA, exRepoB]

theorem displayRepos_ex_stars_eval :
    displayRepos "u" exRepos 10 "stars" =
      [OutLine.header "u" 2 2 "stars",
       OutLine.tableRow "beta" 10 "(none)",
       OutLine.tableRow "alpha" 1 "(none)",
       OutLine.totalStars 11,
       OutLine.mostStarred "beta" 10] := by
  have hfork : forkFilter exRepos = [exRepoA, exRepoB] := by decide
  simp only [displayRepos, hfork, sortRepos_ex_stars]
  simp [displaySummary, langSummaryString, topLangs, sortedLangCounts, langCounts,
    bumpLang, exRepoA, exRepoB, String.intercalate, List.mergeSort]

theorem displayRepos_ex_name_eval :
    displayRepos "u" exRepos 10 "name" =
      [OutLine.header "u" 2 2 "name",
       OutLine.tableRow "alpha" 1 "(none)",
       OutLine.tableRow "beta" 10 "(none)",
       OutLine.totalStars 11,
       OutLine.mostStarred "alpha" 1] := by
  have hfork : forkFilter exRepos = [exRepoA, exRepoB] := by decide
  have hsort : sortRepos "name" [exRepoA, exRepoB] = [exRepoA, exRepoB] := by
    rw [sortRepos_name]
    exact List.mergeSort_of_sorted (by decide)
  simp only [displayRepos, hfork, hsort]
  simp [displaySummary, langSummaryString, topLangs, sortedLangCounts, langCounts,
    bumpLang, exRepoA, exRepoB, String.intercalate, List.mergeSort]

theorem displayRepos_exC_eval :
    displayRepos "u" [exRepoC] 0 "stars" =
      [OutLine.header "u" 1 0 "stars", OutLine.totalStars 7,
       OutLine.mostStarred "gamma" 7] := by
  have hfork : forkFilter [exRepoC] = [exRepoC] := by decide
  have hsort : sortRepos "stars" [exRepoC] = [exRepoC] := by
    rw [sortRepos_stars]
    simp
  simp only [displayRepos, hfork, hsort]
  simp [displaySummary, langSummaryString, topLangs, sortedLangCounts, langCounts,
    bumpLang, exRepoC, String.intercalate, List.mergeSort]

/-- C7: the Total stars figure in the summary equals the sum of star counts
over the full filtered set (after fork removal, before truncation), for every
display limit. -/
theorem total_stars_spec (username : String) (repos : List Repo) (limit : Nat)
    (sortBy : String) (t : Nat)
    (h : OutLine.totalStars t ∈ displayRepos username repos limit sortBy) :
    t = ((forkFilter repos).map (fun r => r.stargazers_count)).sum := by
  rw [totalStars_displayRepos h]
  exact List.Perm.sum_eq (List.Perm.map _ (sortRepos_perm sortBy (forkFilter repos)))

/-- Witness for C7 at display limit 0: the reported figure still sums the
full filtered set. -/
theorem total_stars_spec_witness :
    (7 : Nat) = ((forkFilter [exRepoC]).map (fun r => r.stargazers_count)).sum :=
  total_stars_spec "u" [exRepoC] 0 "stars" 7 (by simp [displayRepos_exC_eval])

/-- C1 (amended): the "Most starred" summary entry is the first element of
the display-sorted list.  For every sort key other than "name" (in
particular "stars" and unrecognized keys, which use the stars ordering) it
is therefore a maximum-star record of the filtered set.  Under the "name"
sort it is the case-insensitively first-named record, which need not carry
the maximum star count. -/
theorem most_starred_is_max_unless_name (username : String) (repos : List Repo)
    (limit : Nat) (sortBy : String) (hs : sortBy ≠ "name") (n : String) (s : Nat)
    (h : OutLine.mostStarred n s ∈ displayRepos username repos limit sortBy)
    (r : Repo) (hr : r ∈ forkFilter repos) :
    r.stargazers_count ≤ s := by
  obtain ⟨top, htop, hn, hsx⟩ := mostStarred_displayRepos h
  subst hsx
  rw [sortRepos_other sortBy hs] at htop
  have hmem : r ∈ (forkFilter repos).mergeSort starsLe := List.mem_mergeSort.mpr hr
  have hpw := List.sorted_mergeSort starsLe_trans starsLe_total (forkFilter repos)
  cases hms : (forkFilter repos).mergeSort starsLe with
  | nil => rw [hms] at htop; simp at htop
  | cons x xs =>
      rw [hms] at htop hmem hpw
      simp only [List.head?_cons, Option.some.injEq] at htop
      subst htop
      rcases List.mem_cons.mp hmem with h1 | h1
      · subst h1; exact le_refl _
      · have hx := (List.pairwise_cons.mp hpw).1 r h1
        simpa [starsLe, decide_eq_true_eq] using hx

/-- Witness for the amended C1 at sort key "stars" and the example repos. -/
theorem most_starred_is_max_unless_name_witness : exRepoB.stargazers_count ≤ 10 :=
  most_starred_is_max_unless_name "u" exRepos 10 "stars" (by decide) "beta" 10
    (by simp [displayRepos_ex_stars_eval]) exRepoB (by decide)

/-- C1 counterexample: with sort key "name" the summary's "Most starred"
line reports the alphabetically first repo ("alpha", 1 star) even though the
filtered set contains a 10-star repo ("beta"), so the reported entry is not
the maximum-star record when the display is sorted by name. -/
theorem most_starred_name_sort_cex :
    OutLine.mostStarred "alpha" 1 ∈ displayRepos "u" exRepos 10 "name" ∧
    OutLine.mostStarred "beta" 10 ∉ displayRepos "u" exRepos 10 "name" ∧
    exRepoB ∈ forkFilter exRepos ∧ 1 < exRepoB.stargazers_count := by
  rw [displayRepos_ex_name_eval]
  decide

/-- C2: whenever the fork-and-language filtered set is empty, the run is a
success: exit code 0, empty stderr, an explicit no-repositories message on
stdout, and nothing beyond the header — no table rows and no summary
statistics. -/
theorem empty_filtered_success (username : String) (limit : Nat) (sortBy : String)
    (language : Option String) (repos : List Repo)
    (h : forkFilter (applyLangFilter language repos) = []) :
    (runMain username limit sortBy language (Except.ok repos)).exitCode = 0 ∧
    (runMain username limit sortBy language (Except.ok repos)).stderr = [] ∧
    (∀ n s l, OutLine.tableRow n s l ∉
      (runMain username limit sortBy language (Except.ok repos)).stdout) ∧
    (∀ t, OutLine.totalStars t ∉
      (runMain username limit sortBy language (Except.ok repos)).stdout) ∧
    ((∃ lang, OutLine.noLangRepos lang username ∈
        (runMain username limit sortBy language (Except.ok repos)).stdout) ∨
      OutLine.noReposFound ∈
        (runMain username limit sortBy language (Except.ok repos)).stdout) := by
  cases language with
  | none =>
      simp only [applyLangFilter] at h
      simp only [runMain, displayRepos_of_empty username repos limit sortBy h]
      refine ⟨?_, ?_, ?_, ?_, Or.inr ?_⟩ <;> simp
  | some lang =>
      simp only [applyLangFilter] at h
      by_cases he : (langFilter lang repos).isEmpty = true
      · simp only [runMain, he, if_true]
        refine ⟨?_, ?_, ?_, ?_, Or.inl ⟨lang, ?_⟩⟩ <;> simp
      · simp only [runMain, he, if_false]
        simp only [displayRepos_of_empty username (langFilter lang repos) limit sortBy h]
        refine ⟨?_, ?_, ?_, ?_, Or.inr ?_⟩ <;> simp

/-- Witness for C2: a fetch returning a single forked repo, no language
filter. -/
theorem empty_filtered_success_witness :
    (runMain "u" 10 "stars" none (Except.ok [exRepoD])).exitCode = 0 ∧
    OutLine.tableRow "delta" 3 "Rust" ∉
      (runMain "u" 10 "stars" none (Except.ok [exRepoD])).stdout :=
  ⟨(empty_filtered_success "u" 10 "stars" none [exRepoD] (by decide)).1,
   (empty_filtered_success "u" 10 "stars" none [exRepoD] (by decide)).2.2.1 "delta" 3 "Rust"⟩

/-- C10: when a supplied language filter matches at least one fetched record
but every match is a fork, the early exit in `main` is not taken: the run
renders the header, zero table rows, and the summary's "No repositories
found." line, and succeeds. -/
theorem fork_only_matches_display_path (username : String) (limit : Nat)
    (sortBy : String) (lang : String) (repos : List Repo)
    (hne : langFilter lang repos ≠ [])
    (hfork : forkFilter (langFilter lang repos) = []) :
    runMain username limit sortBy (some lang) (Except.ok repos) =
      ⟨[OutLine.fetching username, OutLine.header username 0 0 sortBy,
        OutLine.noReposFound], [], 0⟩ := by
  have he : ¬((langFilter lang repos).isEmpty = true) := by
    simpa [List.isEmpty_iff] using hne
  simp only [runMain, he, if_false]
  simp [displayRepos_of_empty username (langFilter lang repos) limit sortBy hfork]

/-- Witness for C10: the "rust" filter matches only the forked repo. -/
theorem fork_only_matches_display_path_witness :
    runMain "u" 10 "stars" (some "rust") (Except.ok [exRepoD]) =
      ⟨[OutLine.fetching "u", OutLine.header "u" 0 0 "stars",
        OutLine.noReposFound], [], 0⟩ :=
  fork_only_matches_display_path "u" 10 "stars" "rust" [exRepoD] (by decide) (by decide)

theorem countLe_trans : ∀ a b c : String × Nat, countLe a b → countLe b c → countLe a c := by
  intro a b c hab hbc
  simp only [countLe, decide_eq_true_eq] at *
  omega

theorem countLe_total : ∀ a b : String × Nat, countLe a b || countLe b a := by
  intro a b
  simp only [countLe, Bool.or_eq_true, decide_eq_true_eq]
  omega

theorem langCounts_foldl_filter : ∀ (repos : List Repo) (init : List (String × Nat)),
    (repos.filter (fun r => r.language.isSome)).foldl
        (fun counts r =>
          match r.language with
          | some lang => bumpLang counts lang
          | none => counts) init
      = repos.foldl
        (fun counts r =>
          match r.language with
          | some lang => bumpLang counts lang
          | none => counts) init := by
  intro repos
  induction repos with
  | nil => intro init; rfl
  | cons r rest ih =>
    intro init
    cases hl : r.language with
    | some lang => simp [List.filter_cons, hl, ih]
    | none => simp [List.filter_cons, hl, ih]

/-- C8: the language tally counts only records whose language is present
(filtering out the absent-language records does not change it), and the
printed language summary lists at most five languages, ordered by
non-increasing occurrence count. -/
theorem lang_summary_spec (repos : List Repo) :
    langCounts (repos.filter (fun r => r.language.isSome)) = langCounts repos ∧
    (topLangs repos).length ≤ 5 ∧
    (topLangs repos).Pairwise (fun a b => b.2 ≤ a.2) := by
  refine ⟨langCounts_foldl_filter repos [], List.length_take_le 5 _, ?_⟩
  have hpw := List.sorted_mergeSort countLe_trans countLe_total (langCounts repos)
  have hsub : List.Sublist (topLangs repos) (sortedLangCounts repos) :=
    List.take_sublist 5 _
  exact (List.Pairwise.sublist hsub hpw).imp
    (fun hab => by simpa [countLe, decide_eq_true_eq] using hab)

/-! ## Helper lemmas about the fetch loop -/

theorem range'_one_concat (k : Nat) (hk : 1 ≤ k) :
    List.range' 1 (k - 1) ++ [k] = List.range' 1 k := by
  have h : k = (k - 1) + 1 := by omega
  conv_rhs => rw [h, List.range'_1_concat]
  have h2 : 1 + (k - 1) = k := by omega
  rw [h2]

/-- Running the loop across `n` consecutive non-empty successful pages
advances the page counter, the accumulator and the request trace. -/
theorem fetchStep_run (pages : Nat → PageResponse) (username : String)
    (rs : Nat → List Repo) :
    ∀ (n fuel page : Nat) (acc : List Repo) (trace : List Nat),
      (∀ j, page ≤ j → j < page + n → pages j = PageResponse.ok (rs j) ∧ rs j ≠ []) →
      n ≤ fuel →
      fetchStep pages username fuel page acc trace =
        fetchStep pages username (fuel - n) (page + n)
          (acc ++ ((List.range' page n).map rs).flatten)
          (trace ++ List.range' page n) := by
  intro n
  induction n with
  | zero => intro fuel page acc trace _ _; simp
  | succ n ih =>
    intro fuel page acc trace h hf
    cases fuel with
    | zero => omega
    | succ fuel =>
      have hpage := h page (le_refl _) (by omega)
      have hne : (rs page).isEmpty = false := by
        simpa [List.isEmpty_iff] using hpage.2
      simp only [fetchStep, hpage.1, hne, Bool.false_eq_true, if_false]
      rw [ih fuel (page + 1) (acc ++ rs page) (trace ++ [page])
        (fun j hj1 hj2 => h j (by omega) (by omega)) (by omega)]
      have e1 : fuel - n = fuel + 1 - (n + 1) := by omega
      have e2 : page + 1 + n = page + (n + 1) := by omega
      have e3 : (acc ++ rs page) ++ ((List.range' (page + 1) n).map rs).flatten
          = acc ++ ((List.range' page (n + 1)).map rs).flatten := by
        rw [List.range'_succ]
        simp [List.append_assoc]
      have e4 : (trace ++ [page]) ++ List.range' (page + 1) n
          = trace ++ List.range' page (n + 1) := by
        rw [List.range'_succ]
        simp [List.append_assoc]
      rw [e1, e2, e3, e4]

/-- C4: when pages `1..k-1` are successful non-empty pages and page `k` is
the first empty page, the fetcher (given at least `k` iterations of fuel)
terminates: it requests exactly pages `1..k`, stops at the empty page `k`,
and returns the in-order concatenation of all pages received before it. -/
theorem pagination_stops_at_first_empty (pages : Nat → PageResponse)
    (username : String) (rs : Nat → List Repo) (k fuel : Nat)
    (hk : 1 ≤ k) (hfuel : k ≤ fuel)
    (hbefore : ∀ j, 1 ≤ j → j < k → pages j = PageResponse.ok (rs j) ∧ rs j ≠ [])
    (hempty : pages k = PageResponse.ok []) :
    fetchRepos pages username fuel =
      some (List.range' 1 k,
        Except.ok (((List.range' 1 (k - 1)).map rs).flatten)) := by
  unfold fetchRepos
  rw [fetchStep_run pages username rs (k - 1) fuel 1 [] []
    (fun j hj1 hj2 => hbefore j hj1 (by omega)) (by omega)]
  have hk' : 1 + (k - 1) = k := by omega
  rw [hk']
  rcases hf : fuel - (k - 1) with _ | m
  · omega
  · simp only [fetchStep, hempty, List.isEmpty_nil, if_true, List.nil_append]
    rw [range'_one_concat k hk]

/-- C3: when pages before `p` are successful non-empty pages and page `p`
returns HTTP 404, the fetch terminates at page `p` — pages `1..p` are the
only requests made — with the specific user-not-found error naming the
account, and `main` then prints the error to stderr and exits with code 1. -/
theorem notFound_fails_immediately (pages : Nat → PageResponse) (username : String)
    (limit : Nat) (sortBy : String) (language : Option String)
    (rs : Nat → List Repo) (p fuel : Nat)
    (hp : 1 ≤ p) (hfuel : p ≤ fuel)
    (hbefore : ∀ j, 1 ≤ j → j < p → pages j = PageResponse.ok (rs j) ∧ rs j ≠ [])
    (h404 : pages p = PageResponse.notFound) :
    fetchRepos pages username fuel =
      some (List.range' 1 p, Except.error (userNotFoundMsg username)) ∧
    runMain username limit sortBy language (Except.error (userNotFoundMsg username)) =
      ⟨[OutLine.fetching username], ["Error: " ++ userNotFoundMsg username], 1⟩ := by
  constructor
  · unfold fetchRepos
    rw [fetchStep_run pages username rs (p - 1) fuel 1 [] []
      (fun j hj1 hj2 => hbefore j hj1 (by omega)) (by omega)]
    have hp' : 1 + (p - 1) = p := by omega
    rw [hp']
    rcases hf : fuel - (p - 1) with _ | m
    · omega
    · simp only [fetchStep, h404, List.nil_append]
      rw [range'_one_concat p hp]
  · rfl

/-- Page responses for the C4 witness: page 1 holds one repo, later pages
are empty. -/
def exPages : Nat → PageResponse :=
  fun p => if p = 1 then PageResponse.ok [exRepoA] else PageResponse.ok []

/-- Witness for C4: one non-empty page, the fetcher requests pages 1 and 2
and returns exactly page 1's records. -/
theorem pagination_stops_at_first_empty_witness :
    fetchRepos exPages "u" 5 = some ([1, 2], Except.ok [exRepoA]) := by
  have h := pagination_stops_at_first_empty exPages "u" (fun _ => [exRepoA]) 2 5
    (by decide) (by decide)
    (fun j hj1 hj2 => by
      have hj : j = 1 := by omega
      subst hj
      exact ⟨rfl, by decide⟩)
    (by decide)
  rw [h]
  rfl

/-- Page responses for the C3 witness: every page is a 404. -/
def exPages404 : Nat → PageResponse := fun _ => PageResponse.notFound

/-- Witness for C3: an immediate 404 on page 1. -/
theorem notFound_fails_immediately_witness :
    fetchRepos exPages404 "u" 3 = some ([1], Except.error (userNotFoundMsg "u")) ∧
    runMain "u" 10 "stars" none (Except.error (userNotFoundMsg "u")) =
      ⟨[OutLine.fetching "u"], ["Error: " ++ userNotFoundMsg "u"], 1⟩ := by
  have h := notFound_fails_immediately exPages404 "u" 10 "stars" none
    (fun _ => []) 1 3 (by decide) (by decide)
    (fun j hj1 hj2 => absurd hj2 (by omega))
    rfl
  refine ⟨?_, h.2⟩
  rw [h.1]
  rfl
